import Mathlib

/-!
Shallow embedding of the `create-mcp-ide` setup wizard (`MCPIDESetup`) and the
`mcp-ide` CLI (`MCPIDECli`) from `scripts/create-mcp-ide.js`, together with
theorems checking the repository's specification against it.

JavaScript values that matter here (strings, `null`, `undefined`, booleans)
are embedded as `JVal`; JS truthiness and `||` are modelled explicitly.
Effectful code (the install loop, the health-check loop, `run()`) is embedded
as pure functions over an explicit environment recording what the outside
world would answer (whether each shell command succeeds, the on-disk state of
the credential file, the operator's answers to prompts), returning traces of
the observable behaviour (rows printed, steps invoked, exit code).
-/

/-- A JavaScript value as far as the embedded code distinguishes them:
`null`, `undefined` (an absent object property), a boolean, or a string. -/
inductive JVal where
  | vNull
  | vUndef
  | vBool (b : Bool)
  | vStr (s : String)
deriving DecidableEq, Repr

namespace JVal

/-- JS truthiness: `null` and `undefined` are falsy, a boolean is itself,
a string is truthy iff non-empty. -/
def truthy : JVal → Bool
  | vNull => false
  | vUndef => false
  | vBool b => b
  | vStr s => s ≠ ""

end JVal

/-- JS `a || b`: evaluates to `a` when `a` is truthy, otherwise to `b`. -/
def jsOr (a b : JVal) : JVal :=
  if a.truthy then a else b

/-- The `{success, message}` record every health check returns.
`success` is a `JVal` because `checkAPIKeys` puts a raw non-boolean there. -/
structure CheckResult where
  success : JVal
  message : String
deriving DecidableEq, Repr

/-- JS `parseInt` on the strings arising here: the longest leading digit
run, or `none` (NaN) when the string does not start with a digit. -/
def parseIntJS (s : List Char) : Option Nat :=
  let ds := s.takeWhile (·.isDigit)
  if ds.isEmpty then none
  else some (ds.foldl (fun n c => n * 10 + (c.toNat - 48)) 0)

/-- `NaN`-aware `major >= 18`: comparisons with NaN are false in JS. -/
def jsGE (o : Option Nat) (n : Nat) : Bool :=
  match o with
  | some m => n ≤ m
  | none => false

/-- `NaN`-aware `major < 18`: comparisons with NaN are false in JS. -/
def jsLT (o : Option Nat) (n : Nat) : Bool :=
  match o with
  | some m => m < n
  | none => false

/-- The major-version parse shared by `detectEnvironment` and `checkNode`:
`parseInt(version.split('.')[0].substring(1))`. The first component of the
split is the run of characters before the first `.`. -/
def majorOf (version : String) : Option Nat :=
  parseIntJS ((version.data.takeWhile (fun c => c ≠ '.')).drop 1)

/-- `MCPIDECli.checkNode`: succeeds iff the parsed major version is `>= 18`;
the message interpolates the full version string after a literal `v`. -/
def checkNode (version : String) : CheckResult :=
  let major := majorOf version
  { success := JVal.vBool (jsGE major 18)
    message := if jsGE major 18 then "v" ++ version
               else "v" ++ version ++ " (18+ required)" }

/-- On-disk state of `~/.mcp-intelligence/credentials.json` as
`checkAPIKeys` can observe it: absent (`fs.access` throws), unreadable or
malformed (`JSON.parse` throws), or parsed with the two looked-up
properties `claude` and `github` each being some `JVal`. -/
inductive CredFile where
  | missing
  | malformed
  | parsed (claude github : JVal)
deriving DecidableEq, Repr

/-- `MCPIDECli.checkAPIKeys`: any thrown error is caught and turned into
`{success: false, message: 'Not configured'}`; otherwise
`hasKey = creds.claude || creds.github` is returned raw as `success`. -/
def checkAPIKeys (f : CredFile) : CheckResult :=
  match f with
  | .missing => { success := JVal.vBool false, message := "Not configured" }
  | .malformed => { success := JVal.vBool false, message := "Not configured" }
  | .parsed claude github =>
    let hasKey := jsOr claude github
    { success := hasKey
      message := if hasKey.truthy then "Configured" else "Not configured" }

/-- One MCP server entry from `getMCPServers`: every literal in the source
has a `name`, a `type`, and exactly one extra key whose value is either a
string literal or an environment variable (possibly undefined). -/
structure ServerSpec where
  name : String
  type : String
  extraKey : String
  extraVal : Option String
deriving DecidableEq, Repr

/-- The environment variables the `enterprise` preset reads. -/
structure EnvVars where
  jiraUrl : Option String
  confluenceUrl : Option String
deriving DecidableEq, Repr

/-- The `web` preset server list from `getMCPServers`. -/
def webServers : List ServerSpec :=
  [ { name := "filesystem", type := "fs", extraKey := "path", extraVal := some "./" }
  , { name := "npm", type := "package", extraKey := "manager", extraVal := some "npm" }
  , { name := "git", type := "git", extraKey := "repo", extraVal := some "./" } ]

/-- The `data` preset server list from `getMCPServers`. -/
def dataServers : List ServerSpec :=
  [ { name := "jupyter", type := "jupyter", extraKey := "notebooks", extraVal := some "./" }
  , { name := "database", type := "sql", extraKey := "connection", extraVal := some "sqlite:///data.db" }
  , { name := "filesystem", type := "fs", extraKey := "path", extraVal := some "./" } ]

/-- The `enterprise` preset server list from `getMCPServers`. -/
def enterpriseServers (env : EnvVars) : List ServerSpec :=
  [ { name := "jira", type := "jira", extraKey := "url", extraVal := env.jiraUrl }
  , { name := "confluence", type := "confluence", extraKey := "url", extraVal := env.confluenceUrl }
  , { name := "git", type := "git", extraKey := "repo", extraVal := some "./" } ]

/-- `MCPIDESetup.getMCPServers`: `servers[useCase] || servers.web`, with the
object literal read as a finite map over its three declared keys. -/
def getMCPServers (env : EnvVars) (useCase : String) : List ServerSpec :=
  if useCase = "web" then webServers
  else if useCase = "data" then dataServers
  else if useCase = "enterprise" then enterpriseServers env
  else webServers

/-- `MCPIDESetup.getConfigPath`: a switch over the editor with a default. -/
def getConfigPath (ide : String) : String :=
  if ide = "vscode" then ".vscode/mcp-config.json"
  else if ide = "jetbrains" then ".idea/mcp-config.json"
  else if ide = "cursor" then ".cursor/mcp-config.json"
  else ".mcp/config.json"

/-- C5: for a `useCase` outside the known keys, `getMCPServers` yields the
`web` preset server list, whatever the environment variables are. -/
theorem getMCPServers_unknown_fallback (env : EnvVars) (useCase : String)
    (h1 : useCase ≠ "web") (h2 : useCase ≠ "data") (h3 : useCase ≠ "enterprise") :
    getMCPServers env useCase = webServers := by
  simp [getMCPServers, h1, h2, h3]

/-- Witness for C5: the unknown use case `mobile` resolves to the web preset. -/
theorem getMCPServers_unknown_fallback_witness :
    getMCPServers ⟨none, none⟩ "mobile" = webServers :=
  getMCPServers_unknown_fallback ⟨none, none⟩ "mobile"
    (by decide) (by decide) (by decide)

/-- C6: the editor-to-path mapping is total, sending the three known editors
to their dotted directories and everything else to `.mcp/config.json`. -/
theorem getConfigPath_total :
    getConfigPath "vscode" = ".vscode/mcp-config.json"
    ∧ getConfigPath "jetbrains" = ".idea/mcp-config.json"
    ∧ getConfigPath "cursor" = ".cursor/mcp-config.json"
    ∧ ∀ ide : String, ide ≠ "vscode" → ide ≠ "jetbrains" → ide ≠ "cursor" →
        getConfigPath ide = ".mcp/config.json" := by
  refine ⟨rfl, rfl, rfl, ?_⟩
  intro ide h1 h2 h3
  simp [getConfigPath, h1, h2, h3]

/-- Witness for C6: the unknown editor `eclipse` maps to the default path. -/
theorem getConfigPath_total_witness :
    getConfigPath "eclipse" = ".mcp/config.json" :=
  getConfigPath_total.2.2.2 "eclipse" (by decide) (by decide) (by decide)

/-- C4 counterexample: with the credential file present and every field
`null`, `checkAPIKeys` puts the raw `null` (`creds.claude || creds.github`)
in `success`, not the strict boolean `false` — so the three boundary cases
do not all return `success = false`, though all are falsy. -/
theorem checkAPIKeys_allNull_not_boolean_false :
    (checkAPIKeys (CredFile.parsed JVal.vNull JVal.vNull)).success = JVal.vNull
    ∧ (checkAPIKeys (CredFile.parsed JVal.vNull JVal.vNull)).success ≠ JVal.vBool false := by
  decide

/-- C4 (amended): `checkAPIKeys` returns a result (it never throws: any
read or parse error is caught) with a falsy `success` and the message
`Not configured` in each of the three boundary cases — file missing, file
malformed, and file parsed with all credential fields `null`; the first
two return the literal boolean `false`, the third returns `null`. -/
theorem checkAPIKeys_failure_cases :
    ((checkAPIKeys CredFile.missing).success.truthy = false
      ∧ (checkAPIKeys CredFile.missing).message = "Not configured")
    ∧ ((checkAPIKeys CredFile.malformed).success.truthy = false
      ∧ (checkAPIKeys CredFile.malformed).message = "Not configured")
    ∧ ((checkAPIKeys (CredFile.parsed JVal.vNull JVal.vNull)).success.truthy = false
      ∧ (checkAPIKeys (CredFile.parsed JVal.vNull JVal.vNull)).message = "Not configured")
    ∧ checkAPIKeys CredFile.missing = checkAPIKeys CredFile.malformed := by
  decide

/-- C10 counterexample: when the `claude` field parses to the empty string
(a non-null value that is falsy in JS), `creds.claude || creds.github`
falls through to `github`; with `github` null the returned `success` is
`null` and falsy even though a known credential field is non-null — so
"truthy exactly when some known credential field is non-null" fails. -/
theorem checkAPIKeys_empty_string_counterexample :
    JVal.vStr "" ≠ JVal.vNull
    ∧ (checkAPIKeys (CredFile.parsed (JVal.vStr "") JVal.vNull)).success.truthy = false := by
  decide

/-- C10 (amended): on a parsed credential file, `success` is the raw JS
value of `claude || github` — the `claude` field itself when it is truthy,
otherwise the `github` field (hence `null` when both are null, and never a
strict boolean unless a field held one) — and it is truthy exactly when
some known credential field is truthy (for strings: non-empty). -/
theorem checkAPIKeys_raw_or_semantics (claude github : JVal) :
    (checkAPIKeys (CredFile.parsed claude github)).success = jsOr claude github
    ∧ (checkAPIKeys (CredFile.parsed claude github)).success.truthy
        = (claude.truthy || github.truthy)
    ∧ (claude.truthy = true →
        (checkAPIKeys (CredFile.parsed claude github)).success = claude)
    ∧ (claude.truthy = false →
        (checkAPIKeys (CredFile.parsed claude github)).success = github) := by
  refine ⟨rfl, ?_, ?_, ?_⟩
  · by_cases h : claude.truthy <;> simp [checkAPIKeys, jsOr, h]
  · intro h; simp [checkAPIKeys, jsOr, h]
  · intro h; simp [checkAPIKeys, jsOr, h]

/-- Witness for C10 (amended): a configured claude key is returned raw;
with claude null, the github value is returned raw. -/
theorem checkAPIKeys_raw_or_semantics_witness :
    (checkAPIKeys (CredFile.parsed (JVal.vStr "sk-ant-k") JVal.vNull)).success
      = JVal.vStr "sk-ant-k"
    ∧ (checkAPIKeys (CredFile.parsed JVal.vNull (JVal.vStr "gh"))).success
      = JVal.vStr "gh" :=
  ⟨(checkAPIKeys_raw_or_semantics (JVal.vStr "sk-ant-k") JVal.vNull).2.2.1 (by decide),
   (checkAPIKeys_raw_or_semantics JVal.vNull (JVal.vStr "gh")).2.2.2 (by decide)⟩

/-- C8: whenever the major-version parse of the detected version string
succeeds (as it does for `vX.Y.Z` strings), `checkNode` succeeds iff the
major version is at least 18, and in both branches the message embeds the
detected version string verbatim. -/
theorem checkNode_version_gate (version : String) (m : Nat)
    (h : majorOf version = some m) :
    ((checkNode version).success.truthy = true ↔ 18 ≤ m)
    ∧ ∃ post, (checkNode version).message = "v" ++ version ++ post := by
  constructor
  · simp [checkNode, jsGE, h, JVal.truthy]
  · by_cases h18 : jsGE (majorOf version) 18
    · exact ⟨"", by simp [checkNode, h18]⟩
    · exact ⟨" (18+ required)", by simp [checkNode, h18]⟩

/-- Witness for C8: the platform version `v18.0.0` (major 18) passes and
`v17.9.9` (major 17) fails, both messages embedding the version string. -/
theorem checkNode_version_gate_witness :
    (majorOf "v18.0.0" = some 18
      ∧ (((checkNode "v18.0.0").success.truthy = true ↔ 18 ≤ 18)
        ∧ ∃ post, (checkNode "v18.0.0").message = "v" ++ "v18.0.0" ++ post))
    ∧ (majorOf "v17.9.9" = some 17
      ∧ (((checkNode "v17.9.9").success.truthy = true ↔ 18 ≤ 17)
        ∧ ∃ post, (checkNode "v17.9.9").message = "v" ++ "v17.9.9" ++ post)) :=
  ⟨⟨by decide, checkNode_version_gate "v18.0.0" 18 (by decide)⟩,
   ⟨by decide, checkNode_version_gate "v17.9.9" 17 (by decide)⟩⟩

/-- One installer step as `MCPIDESetup.install` sees it in a given run: its
displayed name and whether its action succeeds when invoked. -/
structure Step where
  name : String
  ok : Bool
deriving DecidableEq, Repr

/-- Terminal outcome of the install loop: the `for` loop ran to the end
(`completed`), or `process.exit(code)` was called (`aborted code`). -/
inductive Outcome where
  | completed
  | aborted (exitCode : Nat)
deriving DecidableEq, Repr

/-- The loop body of `MCPIDESetup.install`, from the step at position `i`:
invoke the step's action; on success proceed; on failure show the
`Continue anyway?` prompt (the `answers` oracle gives the operator's reply
for the prompt at step `i`); on a `no` answer call `process.exit(1)`.
Returns the names of the steps whose actions were invoked, in invocation
order, the number of continue prompts shown, and the terminal outcome. -/
def installFrom (answers : Nat → Bool) : List Step → Nat → List String × Nat × Outcome
  | [], _ => ([], 0, Outcome.completed)
  | s :: rest, i =>
    if s.ok then
      let r := installFrom answers rest (i + 1)
      (s.name :: r.1, r.2.1, r.2.2)
    else if answers i then
      let r := installFrom answers rest (i + 1)
      (s.name :: r.1, r.2.1 + 1, r.2.2)
    else
      ([s.name], 1, Outcome.aborted 1)

/-- `MCPIDESetup.install`: run the whole step list from the start. -/
def install (answers : Nat → Bool) (steps : List Step) : List String × Nat × Outcome :=
  installFrom answers steps 0

/-- The five step names declared in `MCPIDESetup.install`, in order. -/
def declaredStepNames : List String :=
  [ "Install MCP Intelligence", "Install IDE Extensions", "Configure Settings"
  , "Set up API Keys", "Create Sample Project" ]

/-- A step "passes through" when its action succeeds or the operator
answers yes to its failure prompt; the loop then continues past it. -/
theorem installFrom_pass (answers : Nat → Bool) (pre rest : List Step) (i : Nat)
    (h : ∀ j (hj : j < pre.length),
      (pre.get ⟨j, hj⟩).ok = true ∨ answers (i + j) = true) :
    (installFrom answers (pre ++ rest) i).1
      = pre.map Step.name ++ (installFrom answers rest (i + pre.length)).1
    ∧ (installFrom answers (pre ++ rest) i).2.2
      = (installFrom answers rest (i + pre.length)).2.2 := by
  induction pre generalizing i with
  | nil => simp
  | cons s pre ih =>
    have h0 : s.ok = true ∨ answers i = true := by
      simpa using h 0 (by simp)
    have hshift : ∀ j (hj : j < pre.length),
        (pre.get ⟨j, hj⟩).ok = true ∨ answers (i + 1 + j) = true := by
      intro j hj
      have := h (j + 1) (by simpa using Nat.succ_lt_succ hj)
      simpa [Nat.add_assoc, Nat.add_comm 1 j] using this
    have hrec := ih (i + 1) hshift
    have e : i + (pre.length + 1) = i + 1 + pre.length := by omega
    rcases h0 with hok | hyes
    · constructor
      · simp [installFrom, hok, hrec.1, e]
      · simp [installFrom, hok, hrec.2, e]
    · by_cases hok : s.ok
      · constructor
        · simp [installFrom, hok, hrec.1, e]
        · simp [installFrom, hok, hrec.2, e]
      · constructor
        · simp [installFrom, hok, hyes, hrec.1, e]
        · simp [installFrom, hok, hyes, hrec.2, e]

/-- When every step passes through, the loop invokes every step once, in
order, and reaches the `completed` outcome. -/
theorem installFrom_complete (answers : Nat → Bool) (steps : List Step) (i : Nat)
    (h : ∀ j (hj : j < steps.length),
      (steps.get ⟨j, hj⟩).ok = true ∨ answers (i + j) = true) :
    (installFrom answers steps i).1 = steps.map Step.name
    ∧ (installFrom answers steps i).2.2 = Outcome.completed := by
  have := installFrom_pass answers steps [] i h
  simpa [installFrom] using this

/-- C2: if the run reaches a failing step (every earlier step passed
through) and the operator answers no at its prompt, the invoked steps are
exactly the earlier ones plus the failing one — later steps never run, and
nothing is undone: the trace records invocations only — and the run ends
with `process.exit(1)`, the `aborted` outcome. -/
theorem install_abort_stops (answers : Nat → Bool) (pre post : List Step) (s : Step)
    (hpre : ∀ j (hj : j < pre.length),
      (pre.get ⟨j, hj⟩).ok = true ∨ answers j = true)
    (hfail : s.ok = false) (hno : answers pre.length = false) :
    (install answers (pre ++ s :: post)).1 = pre.map Step.name ++ [s.name]
    ∧ (install answers (pre ++ s :: post)).2.2 = Outcome.aborted 1 := by
  have hpre0 : ∀ j (hj : j < pre.length),
      (pre.get ⟨j, hj⟩).ok = true ∨ answers (0 + j) = true := by
    intro j hj; simpa using hpre j hj
  have h := installFrom_pass answers pre (s :: post) 0 hpre0
  have htail : installFrom answers (s :: post) (0 + pre.length)
      = ([s.name], 1, Outcome.aborted 1) := by
    simp [installFrom, hfail, hno]
  constructor
  · rw [install, h.1, htail]
  · rw [install, h.2, htail]

/-- Witness for C2: step 2 of 5 fails, the operator declines; only steps 1
and 2 were invoked and the outcome is `aborted` with exit code 1. -/
theorem install_abort_stops_witness :
    (install (fun _ => false)
        [⟨"Install MCP Intelligence", true⟩, ⟨"Install IDE Extensions", false⟩,
         ⟨"Configure Settings", true⟩, ⟨"Set up API Keys", true⟩,
         ⟨"Create Sample Project", true⟩]).1
      = ["Install MCP Intelligence", "Install IDE Extensions"]
    ∧ (install (fun _ => false)
        [⟨"Install MCP Intelligence", true⟩, ⟨"Install IDE Extensions", false⟩,
         ⟨"Configure Settings", true⟩, ⟨"Set up API Keys", true⟩,
         ⟨"Create Sample Project", true⟩]).2.2 = Outcome.aborted 1 :=
  install_abort_stops (fun _ => false) [⟨"Install MCP Intelligence", true⟩]
    [⟨"Configure Settings", true⟩, ⟨"Set up API Keys", true⟩,
     ⟨"Create Sample Project", true⟩]
    ⟨"Install IDE Extensions", false⟩
    (by intro j hj
        have hj0 : j = 0 := by simpa using Nat.lt_one_iff.mp hj
        subst hj0; left; rfl)
    rfl rfl

/-- C3: if a failing step's prompt is answered yes and every later step
passes through, the loop invokes every declared step exactly once — in
particular the step after the failing one — and the outcome is
`completed` despite the failure. -/
theorem install_continue_completes (answers : Nat → Bool) (pre post : List Step) (s : Step)
    (hpre : ∀ j (hj : j < pre.length),
      (pre.get ⟨j, hj⟩).ok = true ∨ answers j = true)
    (hfail : s.ok = false) (hyes : answers pre.length = true)
    (hpost : ∀ j (hj : j < post.length),
      (post.get ⟨j, hj⟩).ok = true ∨ answers (pre.length + 1 + j) = true) :
    (install answers (pre ++ s :: post)).1
      = pre.map Step.name ++ s.name :: post.map Step.name
    ∧ (install answers (pre ++ s :: post)).2.2 = Outcome.completed := by
  have hpre0 : ∀ j (hj : j < pre.length),
      (pre.get ⟨j, hj⟩).ok = true ∨ answers (0 + j) = true := by
    intro j hj; simpa using hpre j hj
  have h := installFrom_pass answers pre (s :: post) 0 hpre0
  have hrest := installFrom_complete answers post (pre.length + 1) hpost
  have htail1 : (installFrom answers (s :: post) (0 + pre.length)).1
      = s.name :: post.map Step.name := by
    simp only [installFrom, hfail, Bool.false_eq_true, if_false, Nat.zero_add, hyes, if_true]
    rw [hrest.1]
  have htail2 : (installFrom answers (s :: post) (0 + pre.length)).2.2
      = Outcome.completed := by
    simp only [installFrom, hfail, Bool.false_eq_true, if_false, Nat.zero_add, hyes, if_true]
    exact hrest.2
  constructor
  · rw [install, h.1, htail1]
  · rw [install, h.2, htail2]

/-- Witness for C3: step 2 of 5 fails, the operator accepts; every step is
invoked exactly once (step 3 in particular) and the run completes. -/
theorem install_continue_completes_witness :
    (install (fun _ => true)
        [⟨"Install MCP Intelligence", true⟩, ⟨"Install IDE Extensions", false⟩,
         ⟨"Configure Settings", true⟩, ⟨"Set up API Keys", true⟩,
         ⟨"Create Sample Project", true⟩]).1 = declaredStepNames
    ∧ (install (fun _ => true)
        [⟨"Install MCP Intelligence", true⟩, ⟨"Install IDE Extensions", false⟩,
         ⟨"Configure Settings", true⟩, ⟨"Set up API Keys", true⟩,
         ⟨"Create Sample Project", true⟩]).2.2 = Outcome.completed :=
  install_continue_completes (fun _ => true) [⟨"Install MCP Intelligence", true⟩]
    [⟨"Configure Settings", true⟩, ⟨"Set up API Keys", true⟩,
     ⟨"Create Sample Project", true⟩]
    ⟨"Install IDE Extensions", false⟩
    (by intro j hj; right; rfl)
    rfl rfl
    (by intro j hj; right; rfl)

/-- The CLI flags `run()` inspects: `--vscode` and `--claude`. -/
structure Opts where
  vscode : Bool
  claude : Bool
deriving DecidableEq, Repr

/-- Observable trace of one `MCPIDESetup.run()` invocation: the argument of
`process.exit` if it was called (`none` when the run fell through
normally), the installer steps whose actions were invoked, and the number
of `Continue anyway?` prompts shown. -/
structure RunTrace where
  exitCode : Option Nat
  executed : List String
  continuePrompts : Nat
deriving DecidableEq, Repr

/-- The exit code produced by the install loop's outcome. -/
def outcomeExit : Outcome → Option Nat
  | Outcome.completed => none
  | Outcome.aborted c => some c

/-- `MCPIDESetup.run()`: with both `--vscode` and `--claude` set, quick
mode installs immediately; otherwise `detectEnvironment()` runs first and
calls `process.exit(1)` when `parseInt` of the version's first dotted
component (minus its leading `v`) is below 18 — before any install step
and before any continue prompt. `askQuestions`, `verify` and
`showNextSteps` touch none of the observables traced here. -/
def runSetup (opts : Opts) (nodeVersion : String) (steps : List Step)
    (answers : Nat → Bool) : RunTrace :=
  if opts.vscode && opts.claude then
    let r := install answers steps
    { exitCode := outcomeExit r.2.2, executed := r.1, continuePrompts := r.2.1 }
  else if jsLT (majorOf nodeVersion) 18 then
    { exitCode := some 1, executed := [], continuePrompts := 0 }
  else
    let r := install answers steps
    { exitCode := outcomeExit r.2.2, executed := r.1, continuePrompts := r.2.1 }

/-- The five declared steps in a run where every action succeeds. -/
def allOkSteps : List Step :=
  [ ⟨"Install MCP Intelligence", true⟩, ⟨"Install IDE Extensions", true⟩
  , ⟨"Configure Settings", true⟩, ⟨"Set up API Keys", true⟩
  , ⟨"Create Sample Project", true⟩ ]

/-- C7 counterexample: in quick mode (`--vscode --claude`) `run()` skips
`detectEnvironment`, so on a platform with major version 17 the install
steps all execute and no exit-1 halt happens — the claim fails for this
run. -/
theorem runSetup_quickmode_skips_version_gate :
    (runSetup ⟨true, true⟩ "v17.9.9" allOkSteps (fun _ => true)).executed
      = declaredStepNames
    ∧ (runSetup ⟨true, true⟩ "v17.9.9" allOkSteps (fun _ => true)).exitCode ≠ some 1 := by
  decide

/-- C7 (amended): on every non-quick-mode run (the flags `--vscode` and
`--claude` not both set) with detected major version below 18, `run()`
halts via `process.exit(1)` with no install step invoked and no continue
prompt shown. -/
theorem runSetup_interactive_low_version_halts (opts : Opts) (version : String)
    (steps : List Step) (answers : Nat → Bool) (m : Nat)
    (hmode : (opts.vscode && opts.claude) = false)
    (hparse : majorOf version = some m) (hlow : m < 18) :
    runSetup opts version steps answers
      = { exitCode := some 1, executed := [], continuePrompts := 0 } := by
  have hlt : jsLT (majorOf version) 18 = true := by
    simp [jsLT, hparse, hlow]
  simp [runSetup, hmode, hlt]

/-- Witness for C7 (amended): an interactive run on `v17.9.9` exits with
code 1, zero steps executed, zero prompts. -/
theorem runSetup_interactive_low_version_halts_witness :
    runSetup ⟨false, false⟩ "v17.9.9" allOkSteps (fun _ => true)
      = { exitCode := some 1, executed := [], continuePrompts := 0 } :=
  runSetup_interactive_low_version_halts ⟨false, false⟩ "v17.9.9" allOkSteps
    (fun _ => true) 17 (by decide) (by decide) (by decide)

/-- chalk's green wrapping, as emitted to a color terminal. -/
def chalkGreen (s : String) : String := "\x1b[32m" ++ s ++ "\x1b[39m"

/-- chalk's red wrapping, as emitted to a color terminal. -/
def chalkRed (s : String) : String := "\x1b[31m" ++ s ++ "\x1b[39m"

/-- JS `String.prototype.padEnd` with the default space filler: appends
spaces up to length `n`, counting every UTF-16 unit — ANSI escapes
included — and appends nothing when the string is already at least that
long. -/
def padEnd (s : String) (n : Nat) : String :=
  s ++ String.mk (List.replicate (n - s.length) ' ')

/-- One printed row of the health report, from the loop body of
`MCPIDECli.healthCheck`:
`║ ${check.name}:${padding}  ${status.padEnd(30)} ║` where `padding` pads
the name to the longest name and `status` is the chalk-colored
`✅ `/`❌ ` message. -/
def renderRow (maxLength : Nat) (name : String) (r : CheckResult) : String :=
  let padding := String.mk (List.replicate (maxLength - name.length) ' ')
  let status := if r.success.truthy then chalkGreen ("✅ " ++ r.message)
                else chalkRed ("❌ " ++ r.message)
  "║ " ++ name ++ ":" ++ padding ++ "  " ++ padEnd status 30 ++ " ║"

/-- `Math.max(...checks.map(c => c.name.length))` over the check list. -/
def maxNameLen (checks : List (String × CheckResult)) : Nat :=
  checks.foldl (fun m p => max m p.1.length) 0

/-- The `for` loop of `healthCheck`: every check's result is rendered as
one row, in list order, with no early exit. -/
def aggregateRows (maxLength : Nat) : List (String × CheckResult) → List String
  | [] => []
  | (n, r) :: rest => renderRow maxLength n r :: aggregateRows maxLength rest

/-- `MCPIDECli.healthCheck` given the results the six checks would return:
the printed rows in declared order and
`allSuccess = results.every(r => r.success)`. -/
def aggregate (checks : List (String × CheckResult)) : List String × Bool :=
  (aggregateRows (maxNameLen checks) checks,
   checks.all (fun p => p.2.success.truthy))

/-- The six declared checks of `healthCheck`, with the outcome of each
check's action left free. -/
def sixChecks (r1 r2 r3 r4 r5 r6 : CheckResult) : List (String × CheckResult) :=
  [ ("Node.js Version", r1), ("VS Code", r2), ("Claude Extension", r3)
  , ("MCP Intelligence", r4), ("API Keys", r5), ("Network", r6) ]

/-- `MCPIDECli.checkVSCode`: succeeds iff `code --version` exits zero. -/
def checkVSCode (codeOk : Bool) : CheckResult :=
  if codeOk then { success := JVal.vBool true, message := "Installed" }
  else { success := JVal.vBool false, message := "Not found" }

/-- Boolean list-prefix test, for the substring test below. -/
def isPrefixB : List Char → List Char → Bool
  | [], _ => true
  | _ :: _, [] => false
  | a :: as, b :: bs => a = b && isPrefixB as bs

/-- Boolean list-infix test, for the substring test below. -/
def isInfixB (sub : List Char) : List Char → Bool
  | [] => isPrefixB sub []
  | l@(_ :: rest) => isPrefixB sub l || isInfixB sub rest

/-- JS `String.prototype.includes`. -/
def strIncludes (s sub : String) : Bool := isInfixB sub.data s.data

/-- `MCPIDECli.checkClaudeExtension`: succeeds iff the
`code --list-extensions` output contains one of the two expected
extension identifiers; a failed listing (`none`) is caught. -/
def checkClaudeExtension (extList : Option String) : CheckResult :=
  match extList with
  | none => { success := JVal.vBool false, message := "Unable to check" }
  | some extensions =>
    let hasExtension := strIncludes extensions "Anthropic.claude-vscode"
                        || strIncludes extensions "mcp.mcp-intelligence"
    { success := JVal.vBool hasExtension
      message := if hasExtension then "Installed" else "Not installed" }

/-- `MCPIDECli.checkMCPIntelligence`: global `npm list` first, then local. -/
def checkMCPIntelligence (globalOk localOk : Bool) : CheckResult :=
  if globalOk then { success := JVal.vBool true, message := "Installed" }
  else if localOk then { success := JVal.vBool true, message := "Installed (local)" }
  else { success := JVal.vBool false, message := "Not installed" }

/-- `MCPIDECli.checkNetwork`: the placeholder that always succeeds. -/
def checkNetwork : CheckResult :=
  { success := JVal.vBool true, message := "Connected" }

/-- What the outside world answers to the six checks of one
`healthCheck` run. -/
structure HealthEnv where
  nodeVersion : String
  codeOk : Bool
  extList : Option String
  npmGlobalOk : Bool
  npmLocalOk : Bool
  credFile : CredFile
deriving Repr

/-- The declared check list of `healthCheck`, evaluated in `env`. -/
def healthChecksOf (env : HealthEnv) : List (String × CheckResult) :=
  sixChecks (checkNode env.nodeVersion) (checkVSCode env.codeOk)
    (checkClaudeExtension env.extList)
    (checkMCPIntelligence env.npmGlobalOk env.npmLocalOk)
    (checkAPIKeys env.credFile) checkNetwork

/-- `MCPIDECli.healthCheck` end to end: run the declared checks, render
the report rows, return overall health. -/
def healthCheck (env : HealthEnv) : List String × Bool :=
  aggregate (healthChecksOf env)

/-- Every rendered row starts with `║ `, its check's name, and `:`. -/
theorem renderRow_prefix (m : Nat) (name : String) (r : CheckResult) :
    ∃ t, renderRow m name r = ("║ " ++ name ++ ":") ++ t := by
  refine ⟨String.mk (List.replicate (m - name.length) ' ') ++ "  "
    ++ padEnd (if r.success.truthy then chalkGreen ("✅ " ++ r.message)
               else chalkRed ("❌ " ++ r.message)) 30 ++ " ║", ?_⟩
  simp [renderRow, String.append_assoc]

/-- C1: whatever the six check outcomes are, the aggregator renders
exactly one row per check, in the declared order (each row opens with its
check's name), and overall health is the conjunction of the six `success`
flags — no check is skipped after a failure. -/
theorem healthCheck_runs_all_and_conjoins (r1 r2 r3 r4 r5 r6 : CheckResult) :
    (aggregate (sixChecks r1 r2 r3 r4 r5 r6)).1.length = 6
    ∧ (∃ t, (aggregate (sixChecks r1 r2 r3 r4 r5 r6)).1.get? 0
        = some ("║ Node.js Version:" ++ t))
    ∧ (∃ t, (aggregate (sixChecks r1 r2 r3 r4 r5 r6)).1.get? 1
        = some ("║ VS Code:" ++ t))
    ∧ (∃ t, (aggregate (sixChecks r1 r2 r3 r4 r5 r6)).1.get? 2
        = some ("║ Claude Extension:" ++ t))
    ∧ (∃ t, (aggregate (sixChecks r1 r2 r3 r4 r5 r6)).1.get? 3
        = some ("║ MCP Intelligence:" ++ t))
    ∧ (∃ t, (aggregate (sixChecks r1 r2 r3 r4 r5 r6)).1.get? 4
        = some ("║ API Keys:" ++ t))
    ∧ (∃ t, (aggregate (sixChecks r1 r2 r3 r4 r5 r6)).1.get? 5
        = some ("║ Network:" ++ t))
    ∧ (aggregate (sixChecks r1 r2 r3 r4 r5 r6)).2
        = (r1.success.truthy && r2.success.truthy && r3.success.truthy
           && r4.success.truthy && r5.success.truthy && r6.success.truthy) := by
  refine ⟨?_, ?_, ?_, ?_, ?_, ?_, ?_, ?_⟩
  · simp [aggregate, aggregateRows, sixChecks]
  · obtain ⟨t, ht⟩ := renderRow_prefix (maxNameLen (sixChecks r1 r2 r3 r4 r5 r6))
      "Node.js Version" r1
    have e : ("║ " ++ "Node.js Version" ++ ":" : String) = "║ Node.js Version:" := rfl
    rw [e] at ht
    simp only [sixChecks] at ht
    exact ⟨t, by simp [aggregate, aggregateRows, sixChecks, ht]⟩
  · obtain ⟨t, ht⟩ := renderRow_prefix (maxNameLen (sixChecks r1 r2 r3 r4 r5 r6))
      "VS Code" r2
    have e : ("║ " ++ "VS Code" ++ ":" : String) = "║ VS Code:" := rfl
    rw [e] at ht
    simp only [sixChecks] at ht
    exact ⟨t, by simp [aggregate, aggregateRows, sixChecks, ht]⟩
  · obtain ⟨t, ht⟩ := renderRow_prefix (maxNameLen (sixChecks r1 r2 r3 r4 r5 r6))
      "Claude Extension" r3
    have e : ("║ " ++ "Claude Extension" ++ ":" : String) = "║ Claude Extension:" := rfl
    rw [e] at ht
    simp only [sixChecks] at ht
    exact ⟨t, by simp [aggregate, aggregateRows, sixChecks, ht]⟩
  · obtain ⟨t, ht⟩ := renderRow_prefix (maxNameLen (sixChecks r1 r2 r3 r4 r5 r6))
      "MCP Intelligence" r4
    have e : ("║ " ++ "MCP Intelligence" ++ ":" : String) = "║ MCP Intelligence:" := rfl
    rw [e] at ht
    simp only [sixChecks] at ht
    exact ⟨t, by simp [aggregate, aggregateRows, sixChecks, ht]⟩
  · obtain ⟨t, ht⟩ := renderRow_prefix (maxNameLen (sixChecks r1 r2 r3 r4 r5 r6))
      "API Keys" r5
    have e : ("║ " ++ "API Keys" ++ ":" : String) = "║ API Keys:" := rfl
    rw [e] at ht
    simp only [sixChecks] at ht
    exact ⟨t, by simp [aggregate, aggregateRows, sixChecks, ht]⟩
  · obtain ⟨t, ht⟩ := renderRow_prefix (maxNameLen (sixChecks r1 r2 r3 r4 r5 r6))
      "Network" r6
    have e : ("║ " ++ "Network" ++ ":" : String) = "║ Network:" := rfl
    rw [e] at ht
    simp only [sixChecks] at ht
    exact ⟨t, by simp [aggregate, aggregateRows, sixChecks, ht]⟩
  · simp [aggregate, sixChecks, List.all, Bool.and_assoc]

/-- Drop ANSI escape sequences from a character stream: after an `ESC`
the characters up to and including the terminating `m` are invisible. The
flag records whether we are inside an escape sequence. -/
def stripAnsiAux : Bool → List Char → List Char
  | _, [] => []
  | true, c :: rest =>
    if c = 'm' then stripAnsiAux false rest else stripAnsiAux true rest
  | false, c :: rest =>
    if c = '\x1b' then stripAnsiAux true rest else c :: stripAnsiAux false rest

/-- The number of visible characters of a printed line: its length after
stripping ANSI color escape sequences. -/
def visibleLength (s : String) : Nat := (stripAnsiAux false s.data).length

/-- Escape-free characters pass through the stripper untouched. -/
theorem stripAnsiAux_false_append (l1 l2 : List Char)
    (h : ∀ c ∈ l1, c ≠ '\x1b') :
    stripAnsiAux false (l1 ++ l2) = l1 ++ stripAnsiAux false l2 := by
  induction l1 with
  | nil => simp
  | cons c l ih =>
    have hc : c ≠ '\x1b' := h c (by simp)
    have hl : ∀ x ∈ l, x ≠ '\x1b' := fun x hx => h x (by simp [hx])
    simp [stripAnsiAux, hc, ih hl]

/-- An escape-free stream is left untouched by the stripper. -/
theorem stripAnsiAux_false_escfree (l : List Char) (h : ∀ c ∈ l, c ≠ '\x1b') :
    stripAnsiAux false l = l := by
  have := stripAnsiAux_false_append l [] h
  simpa [stripAnsiAux] using this

/-- A five-character color code `ESC [ a b m` is dropped whole. -/
theorem stripAnsiAux_skip_code (a b : Char) (l : List Char)
    (ha : a ≠ 'm') (hb : b ≠ 'm') :
    stripAnsiAux false ('\x1b' :: '[' :: a :: b :: 'm' :: l)
      = stripAnsiAux false l := by
  have hbr : ('[' : Char) ≠ 'm' := by decide
  simp [stripAnsiAux, hbr, ha, hb]

/-- Stripping a plain prefix, one chalk-wrapped block, and a plain tail. -/
theorem stripAnsiAux_decomp (p x q : List Char) (a b : Char)
    (hp : ∀ c ∈ p, c ≠ '\x1b') (hx : ∀ c ∈ x, c ≠ '\x1b')
    (hq : ∀ c ∈ q, c ≠ '\x1b') (ha : a ≠ 'm') (hb : b ≠ 'm') :
    stripAnsiAux false
      (p ++ (('\x1b' :: '[' :: a :: b :: 'm' :: x)
        ++ (('\x1b' :: '[' :: '3' :: '9' :: 'm' :: ([] : List Char)) ++ q)))
      = p ++ (x ++ q) := by
  rw [stripAnsiAux_false_append p _ hp]
  have h39 : ('3' : Char) ≠ 'm' := by decide
  have h9 : ('9' : Char) ≠ 'm' := by decide
  have step1 : ('\x1b' :: '[' :: a :: b :: 'm' :: x)
      ++ (('\x1b' :: '[' :: '3' :: '9' :: 'm' :: ([] : List Char)) ++ q)
      = '\x1b' :: '[' :: a :: b :: 'm'
        :: (x ++ ('\x1b' :: '[' :: '3' :: '9' :: 'm' :: q)) := by
    simp
  rw [step1, stripAnsiAux_skip_code a b _ ha hb,
    stripAnsiAux_false_append x _ hx,
    stripAnsiAux_skip_code '3' '9' q h39 h9,
    stripAnsiAux_false_escfree q hq]

/-- Spaces are escape-free. -/
theorem replicate_space_escfree (n : Nat) :
    ∀ c ∈ List.replicate n ' ', c ≠ '\x1b' := by
  intro c hc
  rw [List.eq_of_mem_replicate hc]
  decide

/-- Length of a chalk-wrapped status string, as `padEnd` counts it. -/
theorem chalk_status_length (emoji : String) (open5 close5 : String)
    (msg : String) (h5 : open5.length = 5) (h5c : close5.length = 5)
    (he : emoji.length = 2) :
    (open5 ++ (emoji ++ msg) ++ close5).length = 12 + msg.length := by
  simp [String.length_append, h5, h5c, he]
  omega

/-- Escape-freeness is preserved by cons of an escape-free character. -/
theorem escfree_cons (c0 : Char) (l : List Char) (h0 : c0 ≠ '\x1b')
    (h : ∀ c ∈ l, c ≠ '\x1b') : ∀ c ∈ c0 :: l, c ≠ '\x1b' := by
  intro c hc
  rcases List.mem_cons.mp hc with rfl | hc
  · exact h0
  · exact h c hc

/-- Escape-freeness is preserved by append. -/
theorem escfree_append (l1 l2 : List Char) (h1 : ∀ c ∈ l1, c ≠ '\x1b')
    (h2 : ∀ c ∈ l2, c ≠ '\x1b') : ∀ c ∈ l1 ++ l2, c ≠ '\x1b' := by
  intro c hc
  rcases List.mem_append.mp hc with hc | hc
  · exact h1 c hc
  · exact h2 c hc

/-- Visible width of one rendered report row: when the check's message is
at most 18 characters (so that `padEnd(30)` still pads past the 10
invisible ANSI characters chalk added) and free of escape characters, and
the name fits the name column, every row is exactly `maxLength + 27`
visible characters wide. -/
theorem visibleLength_renderRow (m : Nat) (name : String) (r : CheckResult)
    (hname : ∀ c ∈ name.data, c ≠ '\x1b')
    (hmsg : ∀ c ∈ r.message.data, c ≠ '\x1b')
    (hlen : r.message.length ≤ 18) (hnm : name.length ≤ m) :
    visibleLength (renderRow m name r) = m + 27 := by
  have dmk : ∀ l : List Char, (String.mk l).data = l := fun _ => rfl
  have hml : r.message.length = r.message.data.length := rfl
  have hnl : name.length = name.data.length := rfl
  have hp : ∀ c ∈ '║' :: ' ' :: (name.data ++ ':'
      :: (List.replicate (m - name.length) ' ' ++ [' ', ' '])), c ≠ '\x1b' := by
    refine escfree_cons _ _ (by decide) (escfree_cons _ _ (by decide)
      (escfree_append _ _ hname (escfree_cons _ _ (by decide)
        (escfree_append _ _ (replicate_space_escfree _) (by decide)))))
  have hq : ∀ n : Nat, ∀ c ∈ List.replicate n ' ' ++ [' ', '║'], c ≠ '\x1b' :=
    fun n => escfree_append _ _ (replicate_space_escfree _) (by decide)
  by_cases hs : r.success.truthy
  · have hpc : (chalkGreen ("✅ " ++ r.message)).length = 12 + r.message.length := by
      simpa [chalkGreen] using
        chalk_status_length "✅ " "\x1b[32m" "\x1b[39m" r.message rfl rfl rfl
    have hx : ∀ c ∈ '✅' :: ' ' :: r.message.data, c ≠ '\x1b' :=
      escfree_cons _ _ (by decide) (escfree_cons _ _ (by decide) hmsg)
    have hdata : (renderRow m name r).data
        = ('║' :: ' ' :: (name.data ++ ':'
            :: (List.replicate (m - name.length) ' ' ++ [' ', ' '])))
          ++ (('\x1b' :: '[' :: '3' :: '2' :: 'm'
                :: ('✅' :: ' ' :: r.message.data))
            ++ (('\x1b' :: '[' :: '3' :: '9' :: 'm' :: ([] : List Char))
              ++ (List.replicate
                    (30 - (chalkGreen ("✅ " ++ r.message)).length) ' '
                ++ [' ', '║']))) := by
      simp [renderRow, hs, chalkGreen, padEnd, String.data_append, dmk,
        List.append_assoc]
    rw [visibleLength, hdata,
      stripAnsiAux_decomp _ _ _ '3' '2' hp hx (hq _) (by decide) (by decide)]
    simp only [List.length_append, List.length_cons, List.length_nil,
      List.length_replicate]
    rw [hpc]
    rw [hml] at hlen ⊢
    rw [hnl] at hnm ⊢
    omega
  · have hpc : (chalkRed ("❌ " ++ r.message)).length = 12 + r.message.length := by
      simpa [chalkRed] using
        chalk_status_length "❌ " "\x1b[31m" "\x1b[39m" r.message rfl rfl rfl
    have hx : ∀ c ∈ '❌' :: ' ' :: r.message.data, c ≠ '\x1b' :=
      escfree_cons _ _ (by decide) (escfree_cons _ _ (by decide) hmsg)
    have hdata : (renderRow m name r).data
        = ('║' :: ' ' :: (name.data ++ ':'
            :: (List.replicate (m - name.length) ' ' ++ [' ', ' '])))
          ++ (('\x1b' :: '[' :: '3' :: '1' :: 'm'
                :: ('❌' :: ' ' :: r.message.data))
            ++ (('\x1b' :: '[' :: '3' :: '9' :: 'm' :: ([] : List Char))
              ++ (List.replicate
                    (30 - (chalkRed ("❌ " ++ r.message)).length) ' '
                ++ [' ', '║']))) := by
      simp [renderRow, hs, chalkRed, padEnd, String.data_append, dmk,
        List.append_assoc]
    rw [visibleLength, hdata,
      stripAnsiAux_decomp _ _ _ '3' '1' hp hx (hq _) (by decide) (by decide)]
    simp only [List.length_append, List.length_cons, List.length_nil,
      List.length_replicate]
    rw [hpc]
    rw [hml] at hlen ⊢
    rw [hnl] at hnm ⊢
    omega

/-- A concrete environment: Node 17.9.9, everything else healthy. -/
def demoEnv : HealthEnv :=
  { nodeVersion := "v17.9.9", codeOk := true
  , extList := some "Anthropic.claude-vscode", npmGlobalOk := true
  , npmLocalOk := true
  , credFile := CredFile.parsed (JVal.vStr "sk-ant-k") JVal.vNull }

/-- C9 counterexample: `status.padEnd(30)` counts the ten invisible ANSI
characters chalk wrapped around the status, so a failing Node.js check
(message `vv17.9.9 (18+ required)`, 23 characters) overflows the pad and
its row is visibly wider (48 columns) than the following `VS Code` row
(43 columns): rows do not all have the same visual width. -/
theorem healthCheck_row_width_counterexample :
    visibleLength ((healthCheck demoEnv).1.headD "")
      ≠ visibleLength (((healthCheck demoEnv).1.drop 1).headD "") := by
  decide

/-- C9 (amended): all report rows have the same visual width (43 columns)
provided every check message is at most 18 characters and contains no
escape character; messages longer than 18 characters (such as the failing
Node.js message) overflow `padEnd(30)` and widen their row. -/
theorem healthCheck_row_width_bounded (r1 r2 r3 r4 r5 r6 : CheckResult)
    (l1 : r1.message.length ≤ 18) (e1 : ∀ c ∈ r1.message.data, c ≠ '\x1b')
    (l2 : r2.message.length ≤ 18) (e2 : ∀ c ∈ r2.message.data, c ≠ '\x1b')
    (l3 : r3.message.length ≤ 18) (e3 : ∀ c ∈ r3.message.data, c ≠ '\x1b')
    (l4 : r4.message.length ≤ 18) (e4 : ∀ c ∈ r4.message.data, c ≠ '\x1b')
    (l5 : r5.message.length ≤ 18) (e5 : ∀ c ∈ r5.message.data, c ≠ '\x1b')
    (l6 : r6.message.length ≤ 18) (e6 : ∀ c ∈ r6.message.data, c ≠ '\x1b') :
    ∀ row ∈ (aggregate (sixChecks r1 r2 r3 r4 r5 r6)).1, visibleLength row = 43 := by
  have hM : maxNameLen (sixChecks r1 r2 r3 r4 r5 r6) = 16 := rfl
  intro row hrow
  simp only [aggregate, aggregateRows, sixChecks, hM, List.mem_cons,
    List.not_mem_nil, or_false] at hrow
  rcases hrow with rfl | rfl | rfl | rfl | rfl | rfl
  · simpa using visibleLength_renderRow 16 "Node.js Version" r1 (by decide) e1 l1 (by decide)
  · simpa using visibleLength_renderRow 16 "VS Code" r2 (by decide) e2 l2 (by decide)
  · simpa using visibleLength_renderRow 16 "Claude Extension" r3 (by decide) e3 l3 (by decide)
  · simpa using visibleLength_renderRow 16 "MCP Intelligence" r4 (by decide) e4 l4 (by decide)
  · simpa using visibleLength_renderRow 16 "API Keys" r5 (by decide) e5 l5 (by decide)
  · simpa using visibleLength_renderRow 16 "Network" r6 (by decide) e6 l6 (by decide)

/-- Witness for C9 (amended): with six short messages the first rendered
row is 43 visible columns wide. -/
theorem healthCheck_row_width_bounded_witness :
    visibleLength ((aggregate (sixChecks
      ⟨JVal.vBool true, "vv18.0.0"⟩ ⟨JVal.vBool true, "Installed"⟩
      ⟨JVal.vBool false, "Not installed"⟩ ⟨JVal.vBool true, "Installed (local)"⟩
      ⟨JVal.vBool false, "Not configured"⟩ ⟨JVal.vBool true, "Connected"⟩)).1.headD "")
      = 43 :=
  healthCheck_row_width_bounded
    ⟨JVal.vBool true, "vv18.0.0"⟩ ⟨JVal.vBool true, "Installed"⟩
    ⟨JVal.vBool false, "Not installed"⟩ ⟨JVal.vBool true, "Installed (local)"⟩
    ⟨JVal.vBool false, "Not configured"⟩ ⟨JVal.vBool true, "Connected"⟩
    (by decide) (by decide) (by decide) (by decide) (by decide) (by decide)
    (by decide) (by decide) (by decide) (by decide) (by decide) (by decide)
    ((aggregate (sixChecks
      ⟨JVal.vBool true, "vv18.0.0"⟩ ⟨JVal.vBool true, "Installed"⟩
      ⟨JVal.vBool false, "Not installed"⟩ ⟨JVal.vBool true, "Installed (local)"⟩
      ⟨JVal.vBool false, "Not configured"⟩ ⟨JVal.vBool true, "Connected"⟩)).1.headD "")
    (by decide)
